import Mathlib

/-!
Verification development for the SFL-LLM split-model core.

This file gives a shallow embedding of the split-execution engine of
`sfl/model/gpt2/gpt2_split.py` (classes `GPT2SplitModel` and
`GPT2SplitLMHeadModel`) and of the collate functions of
`sfl/simulator/dataset.py`, and proves/refutes the frozen claims about them.

Modelling conventions:
* A tensor is a flat list of rational values plus inert metadata
  (`shape`, `dtype`, `device`).  Elementwise torch operations
  (`randn_like`, `+`, `*`) preserve the metadata, exactly as in torch.
* Transformer blocks are opaque functions
  `(index, hidden_state, attention_mask) -> hidden_state` — the spec treats
  the block stack as an opaque, ordered sequence of blocks.  The full
  forward pass hands each block the prepared attention mask; `cut_forward`
  calls `block(hidden_states)` with no mask, which we model by passing
  `none`.
* `randn_like` draws are supplied by an oracle `g : Nat → ℚ` giving the
  sample at each flat position.
* The dropout/embedding prelude of `GPT2Model.forward` is summarised by the
  initial hidden state `h0` (the embedding output after `drop`), and `ln_f`
  is an opaque function; the final `view(output_shape)` reshape does not
  change values and is omitted.
* Python's `fl_config` being possibly unset is modelled by
  `Option FLConfig`; the truthiness test `if self.fl_config.attack_mode:`
  on a string is `attack_mode ≠ ""`.
-/

namespace SFL

/-- A tensor: flat value list plus inert shape/dtype/device metadata. -/
structure Tensor where
  shape : List Nat
  data : List ℚ
  dtype : String
  device : String
deriving DecidableEq

/-- `tensor.min()` of a (nonempty) tensor's values. -/
def listMin : List ℚ → ℚ
  | [] => 0
  | a :: r => r.foldl min a

/-- `tensor.max()` of a (nonempty) tensor's values. -/
def listMax : List ℚ → ℚ
  | [] => 0
  | a :: r => r.foldl max a

/-- `torch.randn_like(x)`: same shape/dtype/device, values from the oracle `g`. -/
def randnLike (g : Nat → ℚ) (x : Tensor) : Tensor :=
  ⟨x.shape, (List.range x.data.length).map g, x.dtype, x.device⟩

/-- The gaussian boundary noise of `GPT2SplitModel.forward`:
`noise = randn_like(h) * (max - min) * noise_scale; h + noise`. -/
def gaussianNoised (g : Nat → ℚ) (scale : ℚ) (x : Tensor) : Tensor :=
  let mn := listMin x.data
  let mx := listMax x.data
  ⟨x.shape,
   List.zipWith (fun a n => a + n * (mx - mn) * scale) x.data ((randnLike g x).data),
   x.dtype, x.device⟩

/-- The fields of `FLConfig` that the split model reads. -/
structure FLConfig where
  split_point_1 : Nat
  split_point_2 : Nat
  noise_mode : String
  noise_scale : ℚ
  attack_mode : String
  collect_intermediates : Bool
deriving DecidableEq

/-- One stored boundary intermediate: the tensor object kept in
`intermediate_fx`, whose `.grad` attribute is `None` until a backward pass
fills it. -/
structure Inter where
  fx : Tensor
  grad : Option Tensor
deriving DecidableEq

/-- The `intermediate_fx` dictionary: at most one entry per boundary key. -/
structure InterState where
  bottom_to_trunk : Option Inter
  trunk_to_top : Option Inter
deriving DecidableEq

/-- `__init__`: `self.intermediate_fx = {}`. -/
def initInterState : InterState := ⟨none, none⟩

/-- `_store_bottom_to_trunk_fx`: overwrite the `bottom_to_trunk` entry.
A freshly produced forward tensor has no `.grad` yet. -/
def storeBottomToTrunk (st : InterState) (fx : Tensor) : InterState :=
  ⟨some ⟨fx, none⟩, st.trunk_to_top⟩

/-- `_store_trunk_to_top_fx`: overwrite the `trunk_to_top` entry. -/
def storeTrunkToTop (st : InterState) (fx : Tensor) : InterState :=
  ⟨st.bottom_to_trunk, some ⟨fx, none⟩⟩

/-- A transformer block, as called in the forward loop:
`(block index, hidden_states, attention_mask) -> hidden_states`. -/
abbrev Block := Nat → Tensor → Option Tensor → Tensor

/-- The attack-mode early-return test performed after block `i` runs:
`if self.fl_config.attack_mode:` and then
`i == split_point_1 - 1 and attack_mode == 'b2tr'` or
`i == split_point_2 and attack_mode == 'tr2t'`.
Python integer arithmetic makes `split_point_1 - 1` equal to `-1` when
`split_point_1 == 0`, hence the comparison over `Int`. -/
def attackHit (c : FLConfig) (i : Nat) : Bool :=
  (c.attack_mode != "") &&
    ((((i : Int) == (c.split_point_1 : Int) - 1) && (c.attack_mode == "b2tr")) ||
     ((i == c.split_point_2) && (c.attack_mode == "tr2t")))

/-- The block loop of `GPT2SplitModel.forward`, over the list of remaining
block indices.  Each step runs the block, then the attack-mode early-return
check, then the intermediate-collection logic (noise, `retain_grad`, store).
Returns `(early_return?, hidden_states, intermediate_fx)`. -/
def fwdAux (cfg : Option FLConfig) (training : Bool) (g : Nat → ℚ)
    (block : Block) (mask : Option Tensor) :
    List Nat → Tensor → InterState → Bool × Tensor × InterState
  | [], h, st => (false, h, st)
  | i :: rest, h, st =>
    let h1 := block i h mask
    if (match cfg with
        | some c => attackHit c i
        | none => false) then
      (true, h1, st)
    else
      match cfg with
      | some c =>
        if training && c.collect_intermediates then
          if (i : Int) = (c.split_point_1 : Int) - 1 then
            let h2 := if c.noise_mode = "gaussian" then gaussianNoised g c.noise_scale h1 else h1
            fwdAux cfg training g block mask rest h2 (storeBottomToTrunk st h2)
          else if i = c.split_point_2 then
            fwdAux cfg training g block mask rest h1 (storeTrunkToTop st h1)
          else
            fwdAux cfg training g block mask rest h1 st
        else
          fwdAux cfg training g block mask rest h1 st
      | none => fwdAux cfg training g block mask rest h1 st

/-- Result of `GPT2SplitModel.forward`: either the bare hidden-state tensor
of an attack-mode early return, or the final `last_hidden_state` (after
`ln_f`) of a completed pass, together with the `intermediate_fx` store. -/
inductive ModelOut where
  | cut (h : Tensor) (st : InterState)
  | full (h : Tensor) (st : InterState)
deriving DecidableEq

/-- `GPT2SplitModel.forward`, from the embedding output `h0` onwards. -/
def gpt2Forward (cfg : Option FLConfig) (training : Bool) (g : Nat → ℚ) (block : Block)
    (mask : Option Tensor) (lnf : Tensor → Tensor) (L : Nat) (h0 : Tensor)
    (st0 : InterState) : ModelOut :=
  match fwdAux cfg training g block mask (List.range L) h0 st0 with
  | (true, h, st) => .cut h st
  | (false, h, st) => .full (lnf h) st

/-- Hidden-state component of a forward result. -/
def outHidden : ModelOut → Tensor
  | .cut h _ => h
  | .full h _ => h

/-- `intermediate_fx` store component of a forward result. -/
def outState : ModelOut → InterState
  | .cut _ st => st
  | .full _ st => st

/-- `GPT2SplitModel.cut_forward`: skip blocks below `split_point_2`, run the
remaining blocks with `block(hidden_states)` (no mask), then `ln_f`. -/
def cut_forward (c : FLConfig) (block : Block) (lnf : Tensor → Tensor) (L : Nat)
    (h : Tensor) : Tensor :=
  lnf ((List.range L).foldl
    (fun acc i => if i < c.split_point_2 then acc else block i acc none) h)

/-- Result of `GPT2SplitLMHeadModel.forward`: with `attack_mode` set the
transformer output is returned as-is (`raw`), otherwise the LM head and the
optional loss are computed (`scored`). -/
inductive LMOut where
  | raw (t : ModelOut)
  | scored (logits : Tensor) (loss : Option ℚ) (st : InterState)
deriving DecidableEq

/-- `GPT2SplitLMHeadModel.forward`: run the transformer, return its output
untouched when `fl_config.attack_mode` is truthy, else apply `lm_head` and
the (abstracted) shifted cross-entropy loss when labels are present. -/
def lmForward (cfg : Option FLConfig) (training : Bool) (g : Nat → ℚ) (block : Block)
    (mask : Option Tensor) (lnf : Tensor → Tensor) (lmHead : Tensor → Tensor)
    (lossFn : Tensor → Tensor → ℚ) (labels : Option Tensor) (L : Nat)
    (h0 : Tensor) (st0 : InterState) : LMOut :=
  let t := gpt2Forward cfg training g block mask lnf L h0 st0
  if (match cfg with
      | some c => c.attack_mode != ""
      | none => false) then
    .raw t
  else
    .scored (lmHead (outHidden t)) (labels.map (lossFn (lmHead (outHidden t)))) (outState t)

/-- `GPT2SplitLMHeadModel.cut_forward`: transformer `cut_forward` then the
LM head; only logits are produced. -/
def lm_cut_forward (c : FLConfig) (block : Block) (lnf : Tensor → Tensor)
    (lmHead : Tensor → Tensor) (L : Nat) (h : Tensor) : Tensor :=
  lmHead (cut_forward c block lnf L h)

/-- `.detach().cpu()`: a copy with no graph linkage, moved to host memory. -/
def toCPU (t : Tensor) : Tensor := ⟨t.shape, t.data, t.dtype, "cpu"⟩

/-- Result of the boundary gradient queries: the empty list `[]`, or the
`(activation, gradient)` pair. -/
inductive GradResult where
  | empty
  | pair (fx : Tensor) (grad : Option Tensor)
deriving DecidableEq

/-- `GPT2SplitModel.get_top_to_trunk_grad`.  With `detach=True` the code
evaluates `intermediate_fx['trunk_to_top'].grad.clone()`, which raises
`AttributeError` when `.grad` is `None`; this is the `Except.error` case. -/
def get_top_to_trunk_grad (st : InterState) (detach : Bool) :
    Except String GradResult :=
  match st.trunk_to_top with
  | some it =>
    if detach then
      match it.grad with
      | some gr => .ok (.pair (toCPU it.fx) (some (toCPU gr)))
      | none => .error "AttributeError: NoneType object has no attribute clone"
    else
      .ok (.pair it.fx it.grad)
  | none => .ok .empty

/-- `GPT2SplitModel.get_trunk_to_bottom_grad` (same shape, key
`bottom_to_trunk`). -/
def get_trunk_to_bottom_grad (st : InterState) (detach : Bool) :
    Except String GradResult :=
  match st.bottom_to_trunk with
  | some it =>
    if detach then
      match it.grad with
      | some gr => .ok (.pair (toCPU it.fx) (some (toCPU gr)))
      | none => .error "AttributeError: NoneType object has no attribute clone"
    else
      .ok (.pair it.fx it.grad)
  | none => .ok .empty

/-- Hidden state after the first `k` blocks of a full pass (blocks `0..k-1`
applied to the embedding output), with no boundary interception. -/
def runUpTo (block : Block) (mask : Option Tensor) (k : Nat) (h0 : Tensor) : Tensor :=
  (List.range k).foldl (fun h i => block i h mask) h0

/-- Plain composition of blocks `a, a+1, ..., a+len-1` on a hidden state. -/
def runSeg (block : Block) (mask : Option Tensor) (a len : Nat) (h : Tensor) : Tensor :=
  (List.range' a len).foldl (fun h i => block i h mask) h

/-!
## Parameter names and the partition getters

A dotted parameter name is modelled as its list of dot-separated segments;
an all-digit segment (a block index) is encoded as `Seg.num`, every other
segment as `Seg.str`.  No segment string contains a dot, so a dot-free
probe string occurs in the dotted name iff it occurs inside one segment.
-/

/-- One dot-separated segment of a parameter name. -/
inductive Seg where
  | str (s : String)
  | num (n : Nat)
deriving DecidableEq

/-- A fully-qualified parameter name, as its segment list. -/
abbrev PName := List Seg

/-- Scan for the first segment `"h"` followed by an all-digit segment —
the first match of the regex `\.h\.[0-9]+` within the tail of the name. -/
def findHNum : List Seg → Int
  | .str s :: .num k :: rest => if s = "h" then (k : Int) else findHNum (.num k :: rest)
  | _ :: rest => findHNum rest
  | [] => -1

/-- `GPT2SplitLMHeadModel._get_block_num`: the regex `\.h\.[0-9]+` needs a
dot before the `h`, so the first segment can never start a match. -/
def _get_block_num (name : PName) : Int :=
  match name with
  | [] => -1
  | _ :: rest => findHNum rest

/-- The 12 parameters of GPT2 block `i`, in declaration order. -/
def blockParamNames (i : Nat) : List PName :=
  [[.str "transformer", .str "h", .num i, .str "ln_1", .str "weight"],
   [.str "transformer", .str "h", .num i, .str "ln_1", .str "bias"],
   [.str "transformer", .str "h", .num i, .str "attn", .str "c_attn", .str "weight"],
   [.str "transformer", .str "h", .num i, .str "attn", .str "c_attn", .str "bias"],
   [.str "transformer", .str "h", .num i, .str "attn", .str "c_proj", .str "weight"],
   [.str "transformer", .str "h", .num i, .str "attn", .str "c_proj", .str "bias"],
   [.str "transformer", .str "h", .num i, .str "ln_2", .str "weight"],
   [.str "transformer", .str "h", .num i, .str "ln_2", .str "bias"],
   [.str "transformer", .str "h", .num i, .str "mlp", .str "c_fc", .str "weight"],
   [.str "transformer", .str "h", .num i, .str "mlp", .str "c_fc", .str "bias"],
   [.str "transformer", .str "h", .num i, .str "mlp", .str "c_proj", .str "weight"],
   [.str "transformer", .str "h", .num i, .str "mlp", .str "c_proj", .str "bias"]]

/-- The embedding parameters, first in `named_parameters()` order. -/
def embedNames : List PName :=
  [[.str "transformer", .str "wte", .str "weight"],
   [.str "transformer", .str "wpe", .str "weight"]]

/-- The parameters after the block stack (`lm_head.weight` is weight-tied to
`wte` and therefore absent from `named_parameters()`). -/
def tailNames : List PName :=
  [[.str "transformer", .str "ln_f", .str "weight"],
   [.str "transformer", .str "ln_f", .str "bias"]]

/-- `GPT2SplitLMHeadModel.named_parameters()` for an `L`-block model, in
declaration order. -/
def gpt2ParamNames (L : Nat) : List PName :=
  embedNames ++ (List.range L).flatMap blockParamNames ++ tailNames

/-- `GPT2SplitLMHeadModel.get_bottom_params`: linear scan that skips
non-trainable parameters when `trainableOnly`, and `break`s at the first
parameter whose block number reaches `split_point_1`. -/
def get_bottom_params (rg : PName → Bool) (sp1 : Nat) (trainableOnly : Bool) :
    List PName → List PName
  | [] => []
  | nm :: rest =>
    if trainableOnly && !(rg nm) then get_bottom_params rg sp1 trainableOnly rest
    else if (sp1 : Int) ≤ _get_block_num nm then []
    else nm :: get_bottom_params rg sp1 trainableOnly rest

/-- `GPT2SplitLMHeadModel.get_top_params`: a `trunk` flag switches on at the
first parameter whose block number reaches `split_point_2`; from then on
every surviving parameter is yielded. -/
def get_top_params (rg : PName → Bool) (sp2 : Nat) (trainableOnly : Bool) :
    List PName → Bool → List PName
  | [], _ => []
  | nm :: rest, trunk =>
    if trainableOnly && !(rg nm) then get_top_params rg sp2 trainableOnly rest trunk
    else
      let trunk' := if (sp2 : Int) ≤ _get_block_num nm then true else trunk
      if trunk' then nm :: get_top_params rg sp2 trainableOnly rest trunk'
      else get_top_params rg sp2 trainableOnly rest trunk'

/-- `GPT2SplitLMHeadModel.get_trunk_params`: keep the parameters with
`split_point_1 <= block_num < split_point_2`. -/
def get_trunk_params (rg : PName → Bool) (sp1 sp2 : Nat) (trainableOnly : Bool) :
    List PName → List PName
  | [] => []
  | nm :: rest =>
    if trainableOnly && !(rg nm) then get_trunk_params rg sp1 sp2 trainableOnly rest
    else if (sp1 : Int) ≤ _get_block_num nm ∧ _get_block_num nm < (sp2 : Int) then
      nm :: get_trunk_params rg sp1 sp2 trainableOnly rest
    else get_trunk_params rg sp1 sp2 trainableOnly rest

/-!
## `reset_params`
-/

/-- Does `sub` occur as a contiguous sublist of `l`? -/
def containsSub (sub : List Char) : List Char → Bool
  | [] => sub.isEmpty
  | c :: rest => sub.isPrefixOf (c :: rest) || containsSub sub rest

/-- Python's `sub in name` for a dot-free probe on a dotted name: the probe
occurs inside some segment (digit segments render as their decimal digits). -/
def nameContains (name : PName) (sub : String) : Bool :=
  name.any fun seg =>
    match seg with
    | .str s => containsSub sub.data s.data
    | .num n => containsSub sub.data (toString n).data

/-- The effect of one `reset_params` pass on one parameter, recorded
symbolically: which in-place initialization it receives.
`normalScaled` stands for the draw with
`std = initializer_range / sqrt(2 * n_layer)`. -/
inductive ResetAction where
  | untouched
  | zeroed
  | filledOne
  | normalDrawn (std : ℚ)
  | normalScaled
deriving DecidableEq

/-- `GPT2SplitLMHeadModel.reset_params`, per parameter name: the
`Embedding`-mode `continue` for `wte`/`wpe`, the `ln_`/`mlp|wte|wpe`
branches, and the trailing exact-name check `name == "c_proj.weight"`
(which, coming last, would overwrite the earlier action). -/
def reset_params (initRange : ℚ) (resetMode : String) (name : PName) : ResetAction :=
  if resetMode = "Embedding" && (nameContains name "wte" || nameContains name "wpe") then
    .untouched
  else
    let a1 : ResetAction :=
      if nameContains name "ln_" then
        if nameContains name "bias" then .zeroed
        else if nameContains name "ln_" && nameContains name "weight" then .filledOne
        else .untouched
      else if nameContains name "mlp" || nameContains name "wte" || nameContains name "wpe" then
        if nameContains name "weight" then .normalDrawn initRange
        else if nameContains name "bias" then .zeroed
        else .untouched
      else .untouched
    if name = [.str "c_proj", .str "weight"] then .normalScaled else a1

/-!
## Dataset collate functions
-/

/-- One pre-processed dataset example, as the collate functions read it. -/
structure Example where
  input : String
  label : Int
deriving DecidableEq

/-- The tokenizer's output for a batch of texts, with
`padding=True, truncation=True, return_tensors='pt'`. -/
structure TokenizerOut where
  input_ids : List (List Int)
  attention_mask : List (List Int)
deriving DecidableEq

/-- A value stored in a collated batch mapping. -/
inductive BVal where
  | tensor2 (m : List (List Int))
  | tensor1 (v : List Int)
  | texts (ts : List String)
deriving DecidableEq

/-- `FedDataset._col_fun`: tokenize the batch texts and return the mapping
`{input_ids, input_att_mask, input_text}`. -/
def _col_fun (tok : List String → TokenizerOut) (batch : List Example) :
    List (String × BVal) :=
  let texts := batch.map (·.input)
  let inp := tok texts
  [("input_ids", .tensor2 inp.input_ids),
   ("input_att_mask", .tensor2 inp.attention_mask),
   ("input_text", .texts texts)]

/-- `IMDBFedDataset._col_fun`: additionally stacks the labels tensor. -/
def imdb_col_fun (tok : List String → TokenizerOut) (batch : List Example) :
    List (String × BVal) :=
  let texts := batch.map (·.input)
  let inp := tok texts
  [("input_ids", .tensor2 inp.input_ids),
   ("input_att_mask", .tensor2 inp.attention_mask),
   ("input_text", .texts texts),
   ("labels", .tensor1 (batch.map (·.label)))]

/-- A 2-D integer tensor is rectangular: all rows share one length. -/
def Rectangular (m : List (List Int)) : Prop :=
  ∀ r ∈ m, r.length = (m.headD []).length

/-- The boundary-noise application at the bottom→trunk boundary: gaussian
noise when configured, identity otherwise. -/
def applyNoise (c : FLConfig) (g : Nat → ℚ) (x : Tensor) : Tensor :=
  if c.noise_mode = "gaussian" then gaussianNoised g c.noise_scale x else x

/-!
## Lemmas: block composition and index-range plumbing
-/

theorem runUpTo_succ (block : Block) (mask : Option Tensor) (k : Nat) (h0 : Tensor) :
    runUpTo block mask (k + 1) h0 = block k (runUpTo block mask k h0) mask := by
  simp [runUpTo, List.range_succ]

theorem runUpTo_congr (block block' : Block) (mask : Option Tensor) (k : Nat) (h0 : Tensor)
    (h : ∀ i, i < k → block' i = block i) :
    runUpTo block' mask k h0 = runUpTo block mask k h0 := by
  induction k with
  | zero => rfl
  | succ n ih =>
    rw [runUpTo_succ, runUpTo_succ, ih (fun i hi => h i (Nat.lt_succ_of_lt hi)),
      h n (Nat.lt_succ_self n)]

theorem runSeg_zero (block : Block) (mask : Option Tensor) (k : Nat) (h0 : Tensor) :
    runSeg block mask 0 k h0 = runUpTo block mask k h0 := by
  simp [runSeg, runUpTo, List.range_eq_range']

theorem runSeg_one (block : Block) (mask : Option Tensor) (a : Nat) (h : Tensor) :
    runSeg block mask a 1 h = block a h mask := by
  simp [runSeg]

/-- Glue two consecutive `range'` pieces. -/
theorem range'_glue (s m n p : Nat) (h : p = s + m) :
    List.range' s m ++ List.range' p n = List.range' s (m + n) := by
  subst h
  exact (List.range'_append_1 s m n).trans (by rw [Nat.add_comm])

theorem runSeg_split (block : Block) (mask : Option Tensor) (a m n : Nat) (h : Tensor) :
    runSeg block mask a (m + n) h = runSeg block mask (a + m) n (runSeg block mask a m h) := by
  unfold runSeg
  rw [← List.foldl_append, range'_glue a m n (a + m) rfl]

/-- Split `range L` around a single index `b < L`. -/
theorem range_split1 (b L : Nat) (hbL : b < L) :
    List.range L = List.range' 0 b ++ [b] ++ List.range' (b + 1) (L - (b + 1)) := by
  have e1 : ([b] : List Nat) = List.range' b 1 := by simp
  rw [List.range_eq_range', e1, List.append_assoc,
    range'_glue b 1 (L - (b + 1)) (b + 1) rfl,
    range'_glue 0 b (1 + (L - (b + 1))) b (by omega)]
  congr 1
  omega

/-- Split `range L` around two indices `a < b < L`. -/
theorem range_split3 (a b L : Nat) (hab : a < b) (hbL : b < L) :
    List.range L = List.range' 0 a ++ [a] ++ (List.range' (a + 1) (b - (a + 1)) ++ [b] ++
      List.range' (b + 1) (L - (b + 1))) := by
  have e1 : ([a] : List Nat) = List.range' a 1 := by simp
  have e2 : ([b] : List Nat) = List.range' b 1 := by simp
  rw [List.range_eq_range', e1, e2, List.append_assoc, List.append_assoc,
    range'_glue b 1 (L - (b + 1)) (b + 1) rfl,
    range'_glue (a + 1) (b - (a + 1)) (1 + (L - (b + 1))) b (by omega),
    range'_glue a 1 (b - (a + 1) + (1 + (L - (b + 1)))) (a + 1) rfl,
    range'_glue 0 a (1 + (b - (a + 1) + (1 + (L - (b + 1))))) a (by omega)]
  congr 1
  omega

/-!
## Lemmas: the attack-mode early-return test
-/

theorem attackHit_no_mode (c : FLConfig) (hm : c.attack_mode = "") (i : Nat) :
    attackHit c i = false := by
  simp [attackHit, hm]

theorem attackHit_b2tr_off (c : FLConfig) (hm : c.attack_mode = "b2tr") (i : Nat)
    (hi : ¬((i : Int) = (c.split_point_1 : Int) - 1)) : attackHit c i = false := by
  simp [attackHit, hm, hi]

theorem attackHit_b2tr_on (c : FLConfig) (hm : c.attack_mode = "b2tr") (i : Nat)
    (hi : (i : Int) = (c.split_point_1 : Int) - 1) : attackHit c i = true := by
  simp [attackHit, hm, hi]

theorem attackHit_tr2t_off (c : FLConfig) (hm : c.attack_mode = "tr2t") (i : Nat)
    (hi : i ≠ c.split_point_2) : attackHit c i = false := by
  simp [attackHit, hm, hi]

theorem attackHit_tr2t_on (c : FLConfig) (hm : c.attack_mode = "tr2t") (i : Nat)
    (hi : i = c.split_point_2) : attackHit c i = true := by
  simp [attackHit, hm, hi]

/-!
## Lemmas: the forward loop
-/

theorem fwdAux_append (cfg : Option FLConfig) (training : Bool) (g : Nat → ℚ) (block : Block)
    (mask : Option Tensor) (l1 l2 : List Nat) (h : Tensor) (st : InterState) :
    fwdAux cfg training g block mask (l1 ++ l2) h st =
      (match fwdAux cfg training g block mask l1 h st with
       | (true, h1, st1) => (true, h1, st1)
       | (false, h1, st1) => fwdAux cfg training g block mask l2 h1 st1) := by
  induction l1 generalizing h st with
  | nil => simp [fwdAux]
  | cons i rest ih =>
    cases cfg with
    | none =>
      simp only [List.cons_append, fwdAux, Bool.false_eq_true, if_false]
      exact ih _ _
    | some c =>
      cases hA : attackHit c i with
      | true => simp [List.cons_append, fwdAux, hA]
      | false =>
        simp only [List.cons_append, fwdAux, hA, Bool.false_eq_true, if_false]
        by_cases hTC : (training && c.collect_intermediates) = true
        · simp only [if_pos hTC]
          by_cases h1 : ((i : Int) = (c.split_point_1 : Int) - 1)
          · simp only [if_pos h1]
            exact ih _ _
          · simp only [if_neg h1]
            by_cases h2 : (i = c.split_point_2)
            · simp only [if_pos h2]
              exact ih _ _
            · simp only [if_neg h2]
              exact ih _ _
        · simp only [if_neg hTC]
          exact ih _ _

theorem fwdAux_pass (c : FLConfig) (training : Bool) (g : Nat → ℚ) (block : Block)
    (mask : Option Tensor) :
    ∀ (l : List Nat) (h : Tensor) (st : InterState),
      (∀ i ∈ l, attackHit c i = false) →
      (∀ i ∈ l, ¬((i : Int) = (c.split_point_1 : Int) - 1) ∧ i ≠ c.split_point_2) →
      fwdAux (some c) training g block mask l h st =
        (false, l.foldl (fun acc i => block i acc mask) h, st) := by
  intro l
  induction l with
  | nil => intro h st _ _; simp [fwdAux]
  | cons i rest ih =>
    intro h st hA hB
    have hAi := hA i (List.mem_cons_self i rest)
    obtain ⟨hB1, hB2⟩ := hB i (List.mem_cons_self i rest)
    have ihr := ih (block i h mask) st
      (fun j hj => hA j (List.mem_cons_of_mem i hj))
      (fun j hj => hB j (List.mem_cons_of_mem i hj))
    simp only [fwdAux, hAi, Bool.false_eq_true, if_neg, List.foldl_cons]
    by_cases hTC : (training && c.collect_intermediates) = true
    · simp only [if_pos hTC, if_neg hB1, if_neg hB2]
      exact ihr
    · simp only [if_neg hTC]
      exact ihr

theorem fwdAux_early (c : FLConfig) (training : Bool) (g : Nat → ℚ) (block : Block)
    (mask : Option Tensor) (i : Nat) (rest : List Nat) (h : Tensor) (st : InterState)
    (hA : attackHit c i = true) :
    fwdAux (some c) training g block mask (i :: rest) h st = (true, block i h mask, st) := by
  simp [fwdAux, hA]

theorem fwdAux_collect_b2tr (c : FLConfig) (g : Nat → ℚ) (block : Block)
    (mask : Option Tensor) (i : Nat) (rest : List Nat) (h : Tensor) (st : InterState)
    (hA : attackHit c i = false) (hcol : c.collect_intermediates = true)
    (hi : (i : Int) = (c.split_point_1 : Int) - 1) :
    fwdAux (some c) true g block mask (i :: rest) h st =
      fwdAux (some c) true g block mask rest (applyNoise c g (block i h mask))
        (storeBottomToTrunk st (applyNoise c g (block i h mask))) := by
  simp [fwdAux, hA, hcol, hi, applyNoise]

theorem fwdAux_collect_tr2t (c : FLConfig) (g : Nat → ℚ) (block : Block)
    (mask : Option Tensor) (i : Nat) (rest : List Nat) (h : Tensor) (st : InterState)
    (hA : attackHit c i = false) (hcol : c.collect_intermediates = true)
    (hi1 : ¬((i : Int) = (c.split_point_1 : Int) - 1)) (hi2 : i = c.split_point_2) :
    fwdAux (some c) true g block mask (i :: rest) h st =
      fwdAux (some c) true g block mask rest (block i h mask)
        (storeTrunkToTop st (block i h mask)) := by
  subst hi2
  simp [fwdAux, hA, hcol, hi1]

theorem fwdAux_append_false {cfg : Option FLConfig} {training : Bool} {g : Nat → ℚ}
    {block : Block} {mask : Option Tensor} {l1 l2 : List Nat} {h : Tensor} {st : InterState}
    {h1 : Tensor} {st1 : InterState} {res : Bool × Tensor × InterState}
    (hl1 : fwdAux cfg training g block mask l1 h st = (false, h1, st1))
    (hl2 : fwdAux cfg training g block mask l2 h1 st1 = res) :
    fwdAux cfg training g block mask (l1 ++ l2) h st = res := by
  rw [fwdAux_append, hl1]
  exact hl2

theorem fwdAux_append_true {cfg : Option FLConfig} {training : Bool} {g : Nat → ℚ}
    {block : Block} {mask : Option Tensor} {l1 l2 : List Nat} {h : Tensor} {st : InterState}
    {h1 : Tensor} {st1 : InterState}
    (hl1 : fwdAux cfg training g block mask l1 h st = (true, h1, st1)) :
    fwdAux cfg training g block mask (l1 ++ l2) h st = (true, h1, st1) := by
  rw [fwdAux_append, hl1]

theorem fwdAux_pass_range {c : FLConfig} {training : Bool} {g : Nat → ℚ} {block : Block}
    {mask : Option Tensor} (a len : Nat) {h : Tensor} {st : InterState}
    (hA : ∀ i, a ≤ i → i < a + len → attackHit c i = false)
    (hB1 : ∀ i, a ≤ i → i < a + len → ¬((i : Int) = (c.split_point_1 : Int) - 1))
    (hB2 : ∀ i, a ≤ i → i < a + len → i ≠ c.split_point_2) :
    fwdAux (some c) training g block mask (List.range' a len) h st =
      (false, runSeg block mask a len h, st) := by
  apply fwdAux_pass
  · intro i hi
    rw [List.mem_range'_1] at hi
    exact hA i hi.1 hi.2
  · intro i hi
    rw [List.mem_range'_1] at hi
    exact ⟨hB1 i hi.1 hi.2, hB2 i hi.1 hi.2⟩

theorem fwdAux_single_b2tr {c : FLConfig} {g : Nat → ℚ} {block : Block} {mask : Option Tensor}
    {i : Nat} {h : Tensor} {st : InterState} (hA : attackHit c i = false)
    (hcol : c.collect_intermediates = true) (hi : (i : Int) = (c.split_point_1 : Int) - 1) :
    fwdAux (some c) true g block mask [i] h st =
      (false, applyNoise c g (block i h mask),
        storeBottomToTrunk st (applyNoise c g (block i h mask))) := by
  rw [fwdAux_collect_b2tr c g block mask i [] h st hA hcol hi]
  simp [fwdAux]

theorem fwdAux_single_tr2t {c : FLConfig} {g : Nat → ℚ} {block : Block} {mask : Option Tensor}
    {i : Nat} {h : Tensor} {st : InterState} (hA : attackHit c i = false)
    (hcol : c.collect_intermediates = true)
    (hi1 : ¬((i : Int) = (c.split_point_1 : Int) - 1)) (hi2 : i = c.split_point_2) :
    fwdAux (some c) true g block mask [i] h st =
      (false, block i h mask, storeTrunkToTop st (block i h mask)) := by
  rw [fwdAux_collect_tr2t c g block mask i [] h st hA hcol hi1 hi2]
  simp [fwdAux]

theorem int_ne_sp1_pred {c : FLConfig} {k i : Nat} (hk : c.split_point_1 = k + 1)
    (hne : i ≠ k) : ¬((i : Int) = (c.split_point_1 : Int) - 1) := by
  intro hcontra
  apply hne
  have h2 : (i : Int) = (k : Int) := by
    rw [hcontra, hk]
    push_cast
    ring
  exact_mod_cast h2

theorem int_ne_neg_one {c : FLConfig} (h10 : c.split_point_1 = 0) (i : Nat) :
    ¬((i : Int) = (c.split_point_1 : Int) - 1) := by
  rw [h10]
  intro hcontra
  omega

/-!
## Scenario characterizations of the forward pass
-/

/-- A collecting training pass with no attack mode and `1 ≤ split_point_1 <
split_point_2 < L`: the b2tr entry stores the (possibly noised) state after
block `split_point_1 - 1`, the tr2t entry stores the state after block
`split_point_2`, and execution continues from the noised tensor. -/
theorem forward_collect (c : FLConfig) (g : Nat → ℚ) (block : Block) (mask : Option Tensor)
    (lnf : Tensor → Tensor) (L : Nat) (h0 : Tensor) (st0 : InterState)
    (hm : c.attack_mode = "") (hcol : c.collect_intermediates = true)
    (h1 : 1 ≤ c.split_point_1) (h12 : c.split_point_1 < c.split_point_2)
    (h2L : c.split_point_2 < L) :
    gpt2Forward (some c) true g block mask lnf L h0 st0 =
      ModelOut.full
        (lnf (runSeg block mask (c.split_point_2 + 1) (L - (c.split_point_2 + 1))
          (runSeg block mask c.split_point_1 (c.split_point_2 + 1 - c.split_point_1)
            (applyNoise c g (runUpTo block mask c.split_point_1 h0)))))
        ⟨some ⟨applyNoise c g (runUpTo block mask c.split_point_1 h0), none⟩,
         some ⟨runSeg block mask c.split_point_1 (c.split_point_2 + 1 - c.split_point_1)
            (applyNoise c g (runUpTo block mask c.split_point_1 h0)), none⟩⟩ := by
  obtain ⟨k, hk⟩ : ∃ k, c.split_point_1 = k + 1 := ⟨c.split_point_1 - 1, by omega⟩
  have hknum : ((k : Nat) : Int) = (c.split_point_1 : Int) - 1 := by
    rw [hk]
    push_cast
    ring
  have hy : applyNoise c g (runUpTo block mask c.split_point_1 h0) =
      applyNoise c g (block k (runSeg block mask 0 k h0) mask) := by
    rw [hk, runUpTo_succ, runSeg_zero]
  have hx : runSeg block mask c.split_point_1 (c.split_point_2 + 1 - c.split_point_1)
        (applyNoise c g (runUpTo block mask c.split_point_1 h0)) =
      block c.split_point_2
        (runSeg block mask (k + 1) (c.split_point_2 - (k + 1))
          (applyNoise c g (block k (runSeg block mask 0 k h0) mask))) mask := by
    rw [hy, hk, show c.split_point_2 + 1 - (k + 1) = (c.split_point_2 - (k + 1)) + 1 by omega,
      runSeg_split, show k + 1 + (c.split_point_2 - (k + 1)) = c.split_point_2 by omega,
      runSeg_one]
  unfold gpt2Forward
  have hall : fwdAux (some c) true g block mask (List.range L) h0 st0 =
      (false,
       runSeg block mask (c.split_point_2 + 1) (L - (c.split_point_2 + 1))
         (runSeg block mask c.split_point_1 (c.split_point_2 + 1 - c.split_point_1)
           (applyNoise c g (runUpTo block mask c.split_point_1 h0))),
       ⟨some ⟨applyNoise c g (runUpTo block mask c.split_point_1 h0), none⟩,
        some ⟨runSeg block mask c.split_point_1 (c.split_point_2 + 1 - c.split_point_1)
           (applyNoise c g (runUpTo block mask c.split_point_1 h0)), none⟩⟩) := by
    rw [range_split3 k c.split_point_2 L (by omega) h2L]
    refine fwdAux_append_false (fwdAux_append_false (fwdAux_pass_range 0 k ?_ ?_ ?_)
      (fwdAux_single_b2tr (attackHit_no_mode c hm k) hcol hknum)) ?_
    · intro i _ _
      exact attackHit_no_mode c hm i
    · intro i _ hik
      exact int_ne_sp1_pred hk (by omega)
    · intro i _ hik
      omega
    · refine fwdAux_append_false (fwdAux_append_false
        (fwdAux_pass_range (k + 1) (c.split_point_2 - (k + 1)) ?_ ?_ ?_)
        (fwdAux_single_tr2t (attackHit_no_mode c hm c.split_point_2) hcol
          (int_ne_sp1_pred hk (by omega)) rfl)) ?_
      · intro i _ _
        exact attackHit_no_mode c hm i
      · intro i hi1 _
        exact int_ne_sp1_pred hk (by omega)
      · intro i _ hi2
        omega
      · rw [hx, hy]
        refine fwdAux_pass_range (c.split_point_2 + 1) (L - (c.split_point_2 + 1)) ?_ ?_ ?_
        · intro i _ _
          exact attackHit_no_mode c hm i
        · intro i hi1 _
          exact int_ne_sp1_pred hk (by omega)
        · intro i hi1 _
          omega
  rw [hall]

/-- A collecting training pass with `split_point_1 = 0`: the `i ==
split_point_1 - 1 == -1` test never fires, so no b2tr Intermediate is
stored; the tr2t entry still stores the state after block `split_point_2`. -/
theorem forward_collect_sp0 (c : FLConfig) (g : Nat → ℚ) (block : Block) (mask : Option Tensor)
    (lnf : Tensor → Tensor) (L : Nat) (h0 : Tensor) (st0 : InterState)
    (hm : c.attack_mode = "") (hcol : c.collect_intermediates = true)
    (h10 : c.split_point_1 = 0) (h2L : c.split_point_2 < L) :
    gpt2Forward (some c) true g block mask lnf L h0 st0 =
      ModelOut.full
        (lnf (runSeg block mask (c.split_point_2 + 1) (L - (c.split_point_2 + 1))
          (runUpTo block mask (c.split_point_2 + 1) h0)))
        ⟨st0.bottom_to_trunk, some ⟨runUpTo block mask (c.split_point_2 + 1) h0, none⟩⟩ := by
  have hx : runUpTo block mask (c.split_point_2 + 1) h0 =
      block c.split_point_2 (runSeg block mask 0 c.split_point_2 h0) mask := by
    rw [runUpTo_succ, runSeg_zero]
  unfold gpt2Forward
  have hall : fwdAux (some c) true g block mask (List.range L) h0 st0 =
      (false,
       runSeg block mask (c.split_point_2 + 1) (L - (c.split_point_2 + 1))
         (runUpTo block mask (c.split_point_2 + 1) h0),
       ⟨st0.bottom_to_trunk, some ⟨runUpTo block mask (c.split_point_2 + 1) h0, none⟩⟩) := by
    rw [range_split1 c.split_point_2 L h2L]
    refine fwdAux_append_false (fwdAux_append_false
      (fwdAux_pass_range 0 c.split_point_2 ?_ ?_ ?_)
      (fwdAux_single_tr2t (attackHit_no_mode c hm c.split_point_2) hcol
        (int_ne_neg_one h10 c.split_point_2) rfl)) ?_
    · intro i _ _
      exact attackHit_no_mode c hm i
    · intro i _ _
      exact int_ne_neg_one h10 i
    · intro i _ hi2
      omega
    · rw [hx]
      refine fwdAux_pass_range (c.split_point_2 + 1) (L - (c.split_point_2 + 1)) ?_ ?_ ?_
      · intro i _ _
        exact attackHit_no_mode c hm i
      · intro i _ _
        exact int_ne_neg_one h10 i
      · intro i hi1 _
        omega
  rw [hall]

/-- With `attack_mode = 'b2tr'` and a valid split, `forward` returns the raw
hidden state after block `split_point_1 - 1` and leaves `intermediate_fx`
untouched, whatever `training` and `collect_intermediates` are. -/
theorem forward_attack_b2tr (c : FLConfig) (training : Bool) (g : Nat → ℚ) (block : Block)
    (mask : Option Tensor) (lnf : Tensor → Tensor) (L : Nat) (h0 : Tensor) (st0 : InterState)
    (hm : c.attack_mode = "b2tr") (h1 : 1 ≤ c.split_point_1)
    (h12 : c.split_point_1 ≤ c.split_point_2) (h1L : c.split_point_1 ≤ L) :
    gpt2Forward (some c) training g block mask lnf L h0 st0 =
      ModelOut.cut (runUpTo block mask c.split_point_1 h0) st0 := by
  obtain ⟨k, hk⟩ : ∃ k, c.split_point_1 = k + 1 := ⟨c.split_point_1 - 1, by omega⟩
  have hknum : ((k : Nat) : Int) = (c.split_point_1 : Int) - 1 := by
    rw [hk]
    push_cast
    ring
  unfold gpt2Forward
  have hall : fwdAux (some c) training g block mask (List.range L) h0 st0 =
      (true, runUpTo block mask c.split_point_1 h0, st0) := by
    rw [range_split1 k L (by omega)]
    rw [List.append_assoc]
    refine fwdAux_append_false (fwdAux_pass_range 0 k ?_ ?_ ?_) ?_
    · intro i _ hik
      exact attackHit_b2tr_off c hm i (int_ne_sp1_pred hk (by omega))
    · intro i _ hik
      exact int_ne_sp1_pred hk (by omega)
    · intro i _ hik
      omega
    · rw [show runUpTo block mask c.split_point_1 h0 =
          block k (runSeg block mask 0 k h0) mask by rw [hk, runUpTo_succ, runSeg_zero]]
      exact fwdAux_append_true
        (fwdAux_early c training g block mask k [] _ _ (attackHit_b2tr_on c hm k hknum))
  rw [hall]

/-- With `attack_mode = 'tr2t'` during a collecting training pass,
the b2tr collection at the earlier boundary still executes (noise applied
and stored), and the early return fires after block `split_point_2` before
the tr2t collection, leaving the tr2t entry untouched. -/
theorem forward_attack_tr2t (c : FLConfig) (g : Nat → ℚ) (block : Block)
    (mask : Option Tensor) (lnf : Tensor → Tensor) (L : Nat) (h0 : Tensor) (st0 : InterState)
    (hm : c.attack_mode = "tr2t") (hcol : c.collect_intermediates = true)
    (h1 : 1 ≤ c.split_point_1) (h12 : c.split_point_1 < c.split_point_2)
    (h2L : c.split_point_2 < L) :
    gpt2Forward (some c) true g block mask lnf L h0 st0 =
      ModelOut.cut
        (runSeg block mask c.split_point_1 (c.split_point_2 + 1 - c.split_point_1)
          (applyNoise c g (runUpTo block mask c.split_point_1 h0)))
        (storeBottomToTrunk st0 (applyNoise c g (runUpTo block mask c.split_point_1 h0))) := by
  obtain ⟨k, hk⟩ : ∃ k, c.split_point_1 = k + 1 := ⟨c.split_point_1 - 1, by omega⟩
  have hknum : ((k : Nat) : Int) = (c.split_point_1 : Int) - 1 := by
    rw [hk]
    push_cast
    ring
  have hy : applyNoise c g (runUpTo block mask c.split_point_1 h0) =
      applyNoise c g (block k (runSeg block mask 0 k h0) mask) := by
    rw [hk, runUpTo_succ, runSeg_zero]
  have hx : runSeg block mask c.split_point_1 (c.split_point_2 + 1 - c.split_point_1)
        (applyNoise c g (runUpTo block mask c.split_point_1 h0)) =
      block c.split_point_2
        (runSeg block mask (k + 1) (c.split_point_2 - (k + 1))
          (applyNoise c g (block k (runSeg block mask 0 k h0) mask))) mask := by
    rw [hy, hk, show c.split_point_2 + 1 - (k + 1) = (c.split_point_2 - (k + 1)) + 1 by omega,
      runSeg_split, show k + 1 + (c.split_point_2 - (k + 1)) = c.split_point_2 by omega,
      runSeg_one]
  unfold gpt2Forward
  have hall : fwdAux (some c) true g block mask (List.range L) h0 st0 =
      (true,
       runSeg block mask c.split_point_1 (c.split_point_2 + 1 - c.split_point_1)
         (applyNoise c g (runUpTo block mask c.split_point_1 h0)),
       storeBottomToTrunk st0 (applyNoise c g (runUpTo block mask c.split_point_1 h0))) := by
    rw [range_split3 k c.split_point_2 L (by omega) h2L]
    refine fwdAux_append_false (fwdAux_append_false (fwdAux_pass_range 0 k ?_ ?_ ?_)
      (fwdAux_single_b2tr (attackHit_tr2t_off c hm k (by omega)) hcol hknum)) ?_
    · intro i _ hik
      exact attackHit_tr2t_off c hm i (by omega)
    · intro i _ hik
      exact int_ne_sp1_pred hk (by omega)
    · intro i _ hik
      omega
    · rw [hx, hy]
      refine fwdAux_append_true (fwdAux_append_false
        (fwdAux_pass_range (k + 1) (c.split_point_2 - (k + 1)) ?_ ?_ ?_) ?_)
      · intro i _ hi2
        exact attackHit_tr2t_off c hm i (by omega)
      · intro i hi1 _
        exact int_ne_sp1_pred hk (by omega)
      · intro i _ hi2
        omega
      · exact fwdAux_early c true g block mask c.split_point_2 [] _ _
          (attackHit_tr2t_on c hm c.split_point_2 rfl)
  rw [hall]

/-!
## Lemmas: block numbers and the partition getters
-/

theorem blockNum_embed : ∀ nm ∈ embedNames, _get_block_num nm = -1 := by decide

theorem blockNum_tail : ∀ nm ∈ tailNames, _get_block_num nm = -1 := by decide

theorem blockNum_block {i : Nat} {nm : PName} (h : nm ∈ blockParamNames i) :
    _get_block_num nm = (i : Int) := by
  simp only [blockParamNames, List.mem_cons, List.not_mem_nil, or_false] at h
  rcases h with rfl | rfl | rfl | rfl | rfl | rfl | rfl | rfl | rfl | rfl | rfl | rfl <;>
    simp [_get_block_num, findHNum]

theorem blockNum_of_mem_flatMap {a len : Nat} {nm : PName}
    (h : nm ∈ (List.range' a len).flatMap blockParamNames) :
    ∃ j, a ≤ j ∧ j < a + len ∧ _get_block_num nm = (j : Int) := by
  rw [List.mem_flatMap] at h
  obtain ⟨j, hj, hnm⟩ := h
  rw [List.mem_range'_1] at hj
  exact ⟨j, hj.1, hj.2, blockNum_block hnm⟩

theorem get_bottom_cons_low {rg : PName → Bool} {sp1 : Nat} {nm : PName} {l : List PName}
    (h : _get_block_num nm < (sp1 : Int)) :
    get_bottom_params rg sp1 false (nm :: l) = nm :: get_bottom_params rg sp1 false l := by
  simp [get_bottom_params, not_le.mpr h]

theorem get_bottom_cons_high {rg : PName → Bool} {sp1 : Nat} {nm : PName} {l : List PName}
    (h : (sp1 : Int) ≤ _get_block_num nm) :
    get_bottom_params rg sp1 false (nm :: l) = [] := by
  simp [get_bottom_params, h]

theorem get_bottom_append_low {rg : PName → Bool} {sp1 : Nat} {l1 l2 : List PName}
    (h : ∀ nm ∈ l1, _get_block_num nm < (sp1 : Int)) :
    get_bottom_params rg sp1 false (l1 ++ l2) = l1 ++ get_bottom_params rg sp1 false l2 := by
  induction l1 with
  | nil => simp
  | cons nm l ih =>
    rw [List.cons_append, get_bottom_cons_low (h nm (List.mem_cons_self nm l)),
      ih (fun x hx => h x (List.mem_cons_of_mem nm hx)), List.cons_append]

theorem get_trunk_eq_filter (rg : PName → Bool) (sp1 sp2 : Nat) (l : List PName) :
    get_trunk_params rg sp1 sp2 false l =
      l.filter (fun nm =>
        decide ((sp1 : Int) ≤ _get_block_num nm ∧ _get_block_num nm < (sp2 : Int))) := by
  induction l with
  | nil => rfl
  | cons nm l ih =>
    by_cases h : ((sp1 : Int) ≤ _get_block_num nm ∧ _get_block_num nm < (sp2 : Int)) <;>
      simp [get_trunk_params, h, ih, List.filter_cons]

theorem get_top_flag_true (rg : PName → Bool) (sp2 : Nat) (l : List PName) :
    get_top_params rg sp2 false l true = l := by
  induction l with
  | nil => rfl
  | cons nm l ih => simp [get_top_params, ih]

theorem get_top_cons_low {rg : PName → Bool} {sp2 : Nat} {nm : PName} {l : List PName}
    (h : _get_block_num nm < (sp2 : Int)) :
    get_top_params rg sp2 false (nm :: l) false = get_top_params rg sp2 false l false := by
  simp [get_top_params, not_le.mpr h]

theorem get_top_cons_high {rg : PName → Bool} {sp2 : Nat} {nm : PName} {l : List PName}
    (h : (sp2 : Int) ≤ _get_block_num nm) :
    get_top_params rg sp2 false (nm :: l) false = nm :: l := by
  simp [get_top_params, h, get_top_flag_true]

theorem get_top_append_low {rg : PName → Bool} {sp2 : Nat} {l1 l2 : List PName}
    (h : ∀ nm ∈ l1, _get_block_num nm < (sp2 : Int)) :
    get_top_params rg sp2 false (l1 ++ l2) false = get_top_params rg sp2 false l2 false := by
  induction l1 with
  | nil => simp
  | cons nm l ih =>
    rw [List.cons_append, get_top_cons_low (h nm (List.mem_cons_self nm l)),
      ih (fun x hx => h x (List.mem_cons_of_mem nm hx))]

/-!
## Lemmas: distinctness of the parameter names
-/

theorem blockParamNames_eq_map (i : Nat) :
    blockParamNames i =
      [[Seg.str "ln_1", Seg.str "weight"], [Seg.str "ln_1", Seg.str "bias"],
       [Seg.str "attn", Seg.str "c_attn", Seg.str "weight"],
       [Seg.str "attn", Seg.str "c_attn", Seg.str "bias"],
       [Seg.str "attn", Seg.str "c_proj", Seg.str "weight"],
       [Seg.str "attn", Seg.str "c_proj", Seg.str "bias"],
       [Seg.str "ln_2", Seg.str "weight"], [Seg.str "ln_2", Seg.str "bias"],
       [Seg.str "mlp", Seg.str "c_fc", Seg.str "weight"],
       [Seg.str "mlp", Seg.str "c_fc", Seg.str "bias"],
       [Seg.str "mlp", Seg.str "c_proj", Seg.str "weight"],
       [Seg.str "mlp", Seg.str "c_proj", Seg.str "bias"]].map
        (fun suf => Seg.str "transformer" :: Seg.str "h" :: Seg.num i :: suf) := rfl

theorem blockParamNames_nodup (i : Nat) : (blockParamNames i).Nodup := by
  rw [blockParamNames_eq_map]
  refine List.Nodup.map ?_ (by decide)
  intro a b hab
  simpa using hab

theorem seg2_block {i : Nat} {nm : PName} (h : nm ∈ blockParamNames i) :
    nm.get? 2 = some (Seg.num i) := by
  rw [blockParamNames_eq_map, List.mem_map] at h
  obtain ⟨suf, _, rfl⟩ := h
  rfl

theorem seg2_embed : ∀ nm ∈ embedNames, nm.get? 2 = some (Seg.str "weight") := by decide

theorem seg2_tail : ∀ nm ∈ tailNames,
    nm.get? 2 = some (Seg.str "weight") ∨ nm.get? 2 = some (Seg.str "bias") := by decide

theorem seg2_of_mem_blocks {l : List Nat} {nm : PName}
    (h : nm ∈ l.flatMap blockParamNames) : ∃ j, nm.get? 2 = some (Seg.num j) := by
  rw [List.mem_flatMap] at h
  obtain ⟨j, _, hj⟩ := h
  exact ⟨j, seg2_block hj⟩

theorem embed_tail_disjoint : ∀ nm ∈ embedNames, nm ∉ tailNames := by decide

theorem gpt2ParamNames_nodup (L : Nat) : (gpt2ParamNames L).Nodup := by
  unfold gpt2ParamNames
  rw [List.nodup_append, List.nodup_append]
  refine ⟨⟨by decide, ?_, ?_⟩, by decide, ?_⟩
  · exact List.nodup_flatMap.2 ⟨fun i _ => blockParamNames_nodup i,
      (List.nodup_range L).imp (by
        intro i j hij nm hmi hmj
        have h1 := seg2_block hmi
        have h2 := seg2_block hmj
        rw [h1] at h2
        exact hij (by simpa using h2))⟩
  · intro nm hme hmb
    have h1 := seg2_embed nm hme
    obtain ⟨j, h2⟩ := seg2_of_mem_blocks hmb
    rw [h1] at h2
    simp at h2
  · intro nm hm hmt
    rcases List.mem_append.1 hm with hme | hmb
    · exact embed_tail_disjoint nm hme hmt
    · obtain ⟨j, h2⟩ := seg2_of_mem_blocks hmb
      rcases seg2_tail nm hmt with h1 | h1 <;> rw [h1] at h2 <;> simp at h2

/-!
## C3: the parameter partition
-/

/-- C3 (amended): for every split configuration with
`0 ≤ split_point_1 < split_point_2 < L`, the three partition getters (with
`trainable_only = False`) yield, in order: bottom = embeddings plus blocks
below `split_point_1`; trunk = blocks in `[split_point_1, split_point_2)`;
top = blocks from `split_point_2` on plus the final norm.  Their
concatenation is exactly the full named-parameter list, which has no
duplicate names — a true partition.  (The original claim's range allowed
`split_point_2 = L`, where `get_top_params` yields nothing and the final
norm falls in no partition — see the counterexample.) -/
theorem c3_partition (rg : PName → Bool) (L sp1 sp2 : Nat)
    (h12 : sp1 < sp2) (h2L : sp2 < L) :
    get_bottom_params rg sp1 false (gpt2ParamNames L) =
        embedNames ++ (List.range' 0 sp1).flatMap blockParamNames ∧
    get_trunk_params rg sp1 sp2 false (gpt2ParamNames L) =
        (List.range' sp1 (sp2 - sp1)).flatMap blockParamNames ∧
    get_top_params rg sp2 false (gpt2ParamNames L) false =
        (List.range' sp2 (L - sp2)).flatMap blockParamNames ++ tailNames ∧
    get_bottom_params rg sp1 false (gpt2ParamNames L) ++
        get_trunk_params rg sp1 sp2 false (gpt2ParamNames L) ++
        get_top_params rg sp2 false (gpt2ParamNames L) false = gpt2ParamNames L ∧
    (gpt2ParamNames L).Nodup := by
  have hr : List.range' 0 sp1 ++ (List.range' sp1 (sp2 - sp1) ++ List.range' sp2 (L - sp2)) =
      List.range' 0 L := by
    rw [range'_glue sp1 (sp2 - sp1) (L - sp2) sp2 (by omega),
        range'_glue 0 sp1 (sp2 - sp1 + (L - sp2)) sp1 (by omega)]
    congr 1
    omega
  have hfull : gpt2ParamNames L =
      embedNames ++ ((List.range' 0 sp1).flatMap blockParamNames ++
        ((List.range' sp1 (sp2 - sp1)).flatMap blockParamNames ++
          ((List.range' sp2 (L - sp2)).flatMap blockParamNames ++ tailNames))) := by
    unfold gpt2ParamNames
    rw [List.range_eq_range', ← hr, List.flatMap_append, List.flatMap_append]
    simp [List.append_assoc]
  have hembed_low : ∀ sp : Nat, ∀ nm ∈ embedNames, _get_block_num nm < (sp : Int) := by
    intro sp nm h
    rw [blockNum_embed nm h]
    have := Int.natCast_nonneg sp
    omega
  have hblocks_low : ∀ (a len sp : Nat), a + len ≤ sp →
      ∀ nm ∈ (List.range' a len).flatMap blockParamNames,
        _get_block_num nm < (sp : Int) := by
    intro a len sp hle nm h
    obtain ⟨j, hj1, hj2, hbn⟩ := blockNum_of_mem_flatMap h
    rw [hbn]
    exact_mod_cast by omega
  have h21 : List.range' sp1 (sp2 - sp1) = sp1 :: List.range' (sp1 + 1) (sp2 - sp1 - 1) := by
    conv_lhs => rw [show sp2 - sp1 = (sp2 - sp1 - 1) + 1 by omega, List.range'_succ]
  have h31 : List.range' sp2 (L - sp2) = sp2 :: List.range' (sp2 + 1) (L - sp2 - 1) := by
    conv_lhs => rw [show L - sp2 = (L - sp2 - 1) + 1 by omega, List.range'_succ]
  have hbot : get_bottom_params rg sp1 false (gpt2ParamNames L) =
      embedNames ++ (List.range' 0 sp1).flatMap blockParamNames := by
    rw [hfull, get_bottom_append_low (hembed_low sp1),
      get_bottom_append_low (hblocks_low 0 sp1 sp1 (by omega))]
    have hstop : get_bottom_params rg sp1 false
        ((List.range' sp1 (sp2 - sp1)).flatMap blockParamNames ++
          ((List.range' sp2 (L - sp2)).flatMap blockParamNames ++ tailNames)) = [] := by
      rw [h21, List.flatMap_cons, List.append_assoc]
      simp only [blockParamNames, List.cons_append]
      apply get_bottom_cons_high
      simp [_get_block_num, findHNum]
    rw [hstop, List.append_nil]
  have htr : get_trunk_params rg sp1 sp2 false (gpt2ParamNames L) =
      (List.range' sp1 (sp2 - sp1)).flatMap blockParamNames := by
    rw [hfull, get_trunk_eq_filter, List.filter_append, List.filter_append,
      List.filter_append, List.filter_append]
    have hembed0 : embedNames.filter (fun nm =>
        decide ((sp1 : Int) ≤ _get_block_num nm ∧ _get_block_num nm < (sp2 : Int))) = [] := by
      rw [List.filter_eq_nil_iff]
      intro nm h
      rw [blockNum_embed nm h]
      have := Int.natCast_nonneg sp1
      simp only [decide_eq_true_eq, not_and]
      omega
    have htail0 : tailNames.filter (fun nm =>
        decide ((sp1 : Int) ≤ _get_block_num nm ∧ _get_block_num nm < (sp2 : Int))) = [] := by
      rw [List.filter_eq_nil_iff]
      intro nm h
      rw [blockNum_tail nm h]
      have := Int.natCast_nonneg sp1
      simp only [decide_eq_true_eq, not_and]
      omega
    have hlow0 : ((List.range' 0 sp1).flatMap blockParamNames).filter (fun nm =>
        decide ((sp1 : Int) ≤ _get_block_num nm ∧ _get_block_num nm < (sp2 : Int))) = [] := by
      rw [List.filter_eq_nil_iff]
      intro nm h
      obtain ⟨j, hj1, hj2, hbn⟩ := blockNum_of_mem_flatMap h
      rw [hbn]
      simp only [decide_eq_true_eq, not_and]
      intro hc
      have : sp1 ≤ j := by exact_mod_cast hc
      omega
    have hhigh0 : ((List.range' sp2 (L - sp2)).flatMap blockParamNames).filter (fun nm =>
        decide ((sp1 : Int) ≤ _get_block_num nm ∧ _get_block_num nm < (sp2 : Int))) = [] := by
      rw [List.filter_eq_nil_iff]
      intro nm h
      obtain ⟨j, hj1, hj2, hbn⟩ := blockNum_of_mem_flatMap h
      rw [hbn]
      simp only [decide_eq_true_eq, not_and]
      intro _
      intro hc
      have : j < sp2 := by exact_mod_cast hc
      omega
    have hmid : ((List.range' sp1 (sp2 - sp1)).flatMap blockParamNames).filter (fun nm =>
        decide ((sp1 : Int) ≤ _get_block_num nm ∧ _get_block_num nm < (sp2 : Int))) =
        (List.range' sp1 (sp2 - sp1)).flatMap blockParamNames := by
      rw [List.filter_eq_self]
      intro nm h
      obtain ⟨j, hj1, hj2, hbn⟩ := blockNum_of_mem_flatMap h
      rw [hbn]
      simp only [decide_eq_true_eq]
      constructor
      · exact_mod_cast hj1
      · exact_mod_cast by omega
    rw [hembed0, htail0, hlow0, hhigh0, hmid]
    simp
  have htop : get_top_params rg sp2 false (gpt2ParamNames L) false =
      (List.range' sp2 (L - sp2)).flatMap blockParamNames ++ tailNames := by
    rw [hfull, get_top_append_low (hembed_low sp2),
      get_top_append_low (hblocks_low 0 sp1 sp2 (by omega)),
      get_top_append_low (hblocks_low sp1 (sp2 - sp1) sp2 (by omega))]
    rw [h31, List.flatMap_cons, List.append_assoc]
    simp only [blockParamNames, List.cons_append]
    rw [get_top_cons_high (by simp [_get_block_num, findHNum])]
  refine ⟨hbot, htr, htop, ?_, gpt2ParamNames_nodup L⟩
  rw [hbot, htr, htop, hfull]
  simp [List.append_assoc]

/-!
## Lemmas: `reset_params` and the dead depth-scaled branch
-/

theorem head_transformer {L : Nat} {nm : PName} (h : nm ∈ gpt2ParamNames L) :
    nm.head? = some (Seg.str "transformer") := by
  unfold gpt2ParamNames at h
  rcases List.mem_append.1 h with h1 | htail
  · rcases List.mem_append.1 h1 with hemb | hblk
    · exact (by decide : ∀ nm ∈ embedNames, nm.head? = some (Seg.str "transformer")) nm hemb
    · rw [List.mem_flatMap] at hblk
      obtain ⟨j, _, hj⟩ := hblk
      rw [blockParamNames_eq_map, List.mem_map] at hj
      obtain ⟨suf, _, rfl⟩ := hj
      rfl
  · exact (by decide : ∀ nm ∈ tailNames, nm.head? = some (Seg.str "transformer")) nm htail

/-- The trailing `name == "c_proj.weight"` comparison of `reset_params` uses
the fully-qualified name, which always starts with `transformer`, so the
depth-scaled initialization branch can never run on a real parameter. -/
theorem reset_never_scaled {L : Nat} {nm : PName} (h : nm ∈ gpt2ParamNames L)
    (ir : ℚ) (mode : String) : reset_params ir mode nm ≠ ResetAction.normalScaled := by
  have hhead := head_transformer h
  have hne : nm ≠ [Seg.str "c_proj", Seg.str "weight"] := by
    intro heq
    rw [heq] at hhead
    exact absurd hhead (by decide)
  intro hcontra
  simp only [reset_params] at hcontra
  rw [if_neg hne] at hcontra
  split_ifs at hcontra

/-!
## Concrete fixtures used by witnesses and counterexamples
-/

/-- A concrete block stack for witnesses: every block prepends a 1 to the
value list (no rational arithmetic, so kernel evaluation stays feasible). -/
def tbX : Block := fun _ h _ => ⟨h.shape, 1 :: h.data, h.dtype, h.device⟩

/-- A concrete `randn_like` oracle: every draw is 1. -/
def gX : Nat → ℚ := fun _ => 1

/-- A concrete one-element input tensor. -/
def t0X : Tensor := ⟨[1], [0], "float32", "cuda"⟩

/-- All parameters trainable. -/
def rgX : PName → Bool := fun _ => true

/-- A concrete padding tokenizer: one fixed row per input text. -/
def tokX : List String → TokenizerOut :=
  fun ts => ⟨ts.map (fun _ => [0, 0]), ts.map (fun _ => [1, 1])⟩

theorem tokX_rect (ts : List String) :
    Rectangular (tokX ts).input_ids ∧ Rectangular (tokX ts).attention_mask := by
  constructor <;>
  · intro r hr
    simp only [tokX] at hr ⊢
    rw [List.mem_map] at hr
    obtain ⟨a, ha, rfl⟩ := hr
    cases ts with
    | nil => simp at ha
    | cons b bs => rfl

/-- `{split_point_1 = 1, split_point_2 = 2, no noise, no attack, collect}`. -/
def cfgCollect : FLConfig := ⟨1, 2, "none", 0, "", true⟩

/-- Same split with gaussian noise, scale 1. -/
def cfgGauss : FLConfig := ⟨1, 2, "gaussian", 1, "", true⟩

/-- Same split with `attack_mode = 'b2tr'`. -/
def cfgB2tr : FLConfig := ⟨1, 2, "none", 0, "b2tr", true⟩

/-- Same split with `attack_mode = 'tr2t'`. -/
def cfgTr2t : FLConfig := ⟨1, 2, "none", 0, "tr2t", true⟩

/-- Same split, not collecting, no attack: a plain full pass. -/
def cfgFull : FLConfig := ⟨1, 2, "none", 0, "", false⟩

/-!
## The claims
-/

/-- C1 (amended): in a collecting training forward pass, when
`1 ≤ split_point_1`, the b2tr Intermediate is the (noised, if gaussian
noise is configured) hidden state produced after block `split_point_1 - 1`;
when `split_point_1 = 0` no b2tr Intermediate is captured at all (there is
no pre-loop capture of the raw embedding output); and the tr2t Intermediate
is the hidden state produced after block `split_point_2` — not after block
`split_point_2 - 1` as the original claim stated. -/
theorem c1_capture_locations (c : FLConfig) (g : Nat → ℚ) (block : Block)
    (mask : Option Tensor) (lnf : Tensor → Tensor) (L : Nat) (h0 : Tensor) (st0 : InterState)
    (hm : c.attack_mode = "") (hcol : c.collect_intermediates = true)
    (h12 : c.split_point_1 < c.split_point_2) (h2L : c.split_point_2 < L) :
    (1 ≤ c.split_point_1 →
      outState (gpt2Forward (some c) true g block mask lnf L h0 st0) =
        ⟨some ⟨applyNoise c g (runUpTo block mask c.split_point_1 h0), none⟩,
         some ⟨runSeg block mask c.split_point_1 (c.split_point_2 + 1 - c.split_point_1)
            (applyNoise c g (runUpTo block mask c.split_point_1 h0)), none⟩⟩) ∧
    (c.split_point_1 = 0 →
      outState (gpt2Forward (some c) true g block mask lnf L h0 st0) =
        ⟨st0.bottom_to_trunk, some ⟨runUpTo block mask (c.split_point_2 + 1) h0, none⟩⟩) := by
  constructor
  · intro h1
    rw [forward_collect c g block mask lnf L h0 st0 hm hcol h1 h12 h2L]
    rfl
  · intro h10
    rw [forward_collect_sp0 c g block mask lnf L h0 st0 hm hcol h10 h2L]
    rfl

/-- C1 witness: `L = 3`, `split_point_1 = 1`, `split_point_2 = 2`, blocks
prepend a 1, no noise. -/
theorem c1_witness :
    (cfgCollect.attack_mode = "" ∧ cfgCollect.collect_intermediates = true ∧
      cfgCollect.split_point_1 < cfgCollect.split_point_2 ∧ cfgCollect.split_point_2 < 3) ∧
    ((1 ≤ cfgCollect.split_point_1 →
      outState (gpt2Forward (some cfgCollect) true gX tbX none id 3 t0X initInterState) =
        ⟨some ⟨applyNoise cfgCollect gX (runUpTo tbX none cfgCollect.split_point_1 t0X), none⟩,
         some ⟨runSeg tbX none cfgCollect.split_point_1
            (cfgCollect.split_point_2 + 1 - cfgCollect.split_point_1)
            (applyNoise cfgCollect gX (runUpTo tbX none cfgCollect.split_point_1 t0X)), none⟩⟩) ∧
    (cfgCollect.split_point_1 = 0 →
      outState (gpt2Forward (some cfgCollect) true gX tbX none id 3 t0X initInterState) =
        ⟨initInterState.bottom_to_trunk,
         some ⟨runUpTo tbX none (cfgCollect.split_point_2 + 1) t0X, none⟩⟩)) :=
  ⟨⟨rfl, rfl, by decide, by decide⟩,
   c1_capture_locations cfgCollect gX tbX none id 3 t0X initInterState rfl rfl
     (by decide) (by decide)⟩

/-- C1 counterexample: with `split_point_2 = 2` and blocks that prepend a
1, the stored tr2t Intermediate is the state after block 2 (three 1s),
while the claim's "hidden state produced after block `split_point_2 - 1`"
is the state after block 1 (two 1s). -/
theorem c1_counterexample :
    (outState (gpt2Forward (some cfgCollect) true gX tbX none id 3 t0X
        initInterState)).trunk_to_top =
      some ⟨⟨[1], [1, 1, 1, 0], "float32", "cuda"⟩, none⟩ ∧
    runUpTo tbX none (cfgCollect.split_point_2 - 1 + 1) t0X =
      ⟨[1], [1, 1, 0], "float32", "cuda"⟩ ∧
    (outState (gpt2Forward (some cfgCollect) true gX tbX none id 3 t0X
        initInterState)).trunk_to_top ≠
      some ⟨runUpTo tbX none (cfgCollect.split_point_2 - 1 + 1) t0X, none⟩ := by
  decide

/-- C2: with `split_point_1 = 1, split_point_2 = 2, L = 4` and blocks that
prepend a 1 (no noise), the pass truncated at the trunk→top boundary via
`attack_mode='tr2t'` returns the state after block 2 (three 1s); the full
pass outputs four 1s; `cut_forward` on the truncated tensor re-runs block 2
and outputs five 1s ≠ four 1s.  Applying `cut_forward` instead to the state
after block `split_point_2 - 1` (two 1s) does reproduce the full output,
showing the break is exactly the off-by-one in where the boundary tensor is
taken. -/
theorem c2_roundtrip_bug :
    gpt2Forward (some cfgTr2t) false gX tbX none id 4 t0X initInterState =
      ModelOut.cut ⟨[1], [1, 1, 1, 0], "float32", "cuda"⟩ initInterState ∧
    gpt2Forward (some cfgFull) false gX tbX none id 4 t0X initInterState =
      ModelOut.full ⟨[1], [1, 1, 1, 1, 0], "float32", "cuda"⟩ initInterState ∧
    cut_forward cfgTr2t tbX id 4 ⟨[1], [1, 1, 1, 0], "float32", "cuda"⟩ =
      ⟨[1], [1, 1, 1, 1, 1, 0], "float32", "cuda"⟩ ∧
    (⟨[1], [1, 1, 1, 1, 1, 0], "float32", "cuda"⟩ : Tensor) ≠
      ⟨[1], [1, 1, 1, 1, 0], "float32", "cuda"⟩ ∧
    cut_forward cfgTr2t tbX id 4
        (runUpTo tbX none (cfgTr2t.split_point_2 - 1 + 1) t0X) =
      ⟨[1], [1, 1, 1, 1, 0], "float32", "cuda"⟩ := by
  decide

/-- C4 (amended): the early return takes precedence only at and after the
attack boundary.  With `attack_mode='b2tr'` the pass returns before any
collection, so neither boundary stores an Intermediate.  With
`attack_mode='tr2t'` the early return at block `split_point_2` does prevent
the tr2t collection, but the b2tr collection at the earlier boundary has
already executed and stored its Intermediate. -/
theorem c4_attack_precedence (c : FLConfig) (g : Nat → ℚ) (block : Block)
    (mask : Option Tensor) (lnf : Tensor → Tensor) (L : Nat) (h0 : Tensor) (st0 : InterState)
    (h1 : 1 ≤ c.split_point_1) (h12 : c.split_point_1 < c.split_point_2)
    (h2L : c.split_point_2 < L) :
    (∀ training : Bool, c.attack_mode = "b2tr" →
      outState (gpt2Forward (some c) training g block mask lnf L h0 st0) = st0) ∧
    (c.attack_mode = "tr2t" → c.collect_intermediates = true →
      outState (gpt2Forward (some c) true g block mask lnf L h0 st0) =
        ⟨some ⟨applyNoise c g (runUpTo block mask c.split_point_1 h0), none⟩,
         st0.trunk_to_top⟩) := by
  constructor
  · intro training hm
    rw [forward_attack_b2tr c training g block mask lnf L h0 st0 hm h1 (by omega) (by omega)]
    rfl
  · intro hm hcol
    rw [forward_attack_tr2t c g block mask lnf L h0 st0 hm hcol h1 h12 h2L]
    rfl

/-- C4 witness: both modes at the concrete 3-block instance. -/
theorem c4_witness :
    (1 ≤ cfgB2tr.split_point_1 ∧ cfgB2tr.split_point_1 < cfgB2tr.split_point_2 ∧
      cfgB2tr.split_point_2 < 3) ∧
    ((∀ training : Bool, cfgB2tr.attack_mode = "b2tr" →
      outState (gpt2Forward (some cfgB2tr) training gX tbX none id 3 t0X initInterState) =
        initInterState) ∧
    (cfgB2tr.attack_mode = "tr2t" → cfgB2tr.collect_intermediates = true →
      outState (gpt2Forward (some cfgB2tr) true gX tbX none id 3 t0X initInterState) =
        ⟨some ⟨applyNoise cfgB2tr gX (runUpTo tbX none cfgB2tr.split_point_1 t0X), none⟩,
         initInterState.trunk_to_top⟩)) :=
  ⟨⟨by decide, by decide, by decide⟩,
   c4_attack_precedence cfgB2tr gX tbX none id 3 t0X initInterState
     (by decide) (by decide) (by decide)⟩

/-- C4 counterexample: with `attack_mode='tr2t'` and
`collect_intermediates=True` on a training pass, the b2tr boundary — the
*other* boundary — does store an Intermediate before the early return. -/
theorem c4_counterexample :
    (outState (gpt2Forward (some cfgTr2t) true gX tbX none id 3 t0X
        initInterState)).bottom_to_trunk ≠ none := by
  decide

/-- C3 witness: `L = 3`, `split_point_1 = 1`, `split_point_2 = 2`. -/
theorem c3_witness :
    ((1 : Nat) < 2 ∧ (2 : Nat) < 3) ∧
    (get_bottom_params rgX 1 false (gpt2ParamNames 3) =
        embedNames ++ (List.range' 0 1).flatMap blockParamNames ∧
     get_trunk_params rgX 1 2 false (gpt2ParamNames 3) =
        (List.range' 1 (2 - 1)).flatMap blockParamNames ∧
     get_top_params rgX 2 false (gpt2ParamNames 3) false =
        (List.range' 2 (3 - 2)).flatMap blockParamNames ++ tailNames ∧
     get_bottom_params rgX 1 false (gpt2ParamNames 3) ++
        get_trunk_params rgX 1 2 false (gpt2ParamNames 3) ++
        get_top_params rgX 2 false (gpt2ParamNames 3) false = gpt2ParamNames 3 ∧
     (gpt2ParamNames 3).Nodup) :=
  ⟨⟨by decide, by decide⟩, c3_partition rgX 3 1 2 (by decide) (by decide)⟩

/-- C3 counterexample: the original claim allows `split_point_2 = L`.  At
`L = 2, split_point_1 = 1, split_point_2 = 2` the `trunk` flag of
`get_top_params` never fires, so the final-norm parameters are yielded by
none of the three getters and the three sequences do not cover the
named-parameter set. -/
theorem c3_counterexample :
    ([Seg.str "transformer", Seg.str "ln_f", Seg.str "weight"] : PName) ∈ gpt2ParamNames 2 ∧
    ([Seg.str "transformer", Seg.str "ln_f", Seg.str "weight"] : PName) ∉
      (get_bottom_params rgX 1 false (gpt2ParamNames 2) ++
        get_trunk_params rgX 1 2 false (gpt2ParamNames 2) ++
        get_top_params rgX 2 false (gpt2ParamNames 2) false) ∧
    get_bottom_params rgX 1 false (gpt2ParamNames 2) ++
        get_trunk_params rgX 1 2 false (gpt2ParamNames 2) ++
        get_top_params rgX 2 false (gpt2ParamNames 2) false ≠ gpt2ParamNames 2 := by
  decide

/-- C5: with `attack_mode = 'b2tr'` and a valid split (`1 ≤ split_point_1 ≤
split_point_2`, `split_point_1 ≤ L`), the transformer forward returns, for
any `training` and `collect_intermediates`, the raw (unnoised) hidden state
produced after block `split_point_1 - 1`, leaving the intermediate store
untouched; the LM-head wrapper returns that transformer output as-is
(no LM head, no loss — the `scored` constructor is never built); and the
result does not depend on the blocks at indices `≥ split_point_1` (no trunk
or top block executes). -/
theorem c5_attack_b2tr_cut (c : FLConfig) (training : Bool) (g : Nat → ℚ) (block : Block)
    (mask : Option Tensor) (lnf : Tensor → Tensor) (lmHead : Tensor → Tensor)
    (lossFn : Tensor → Tensor → ℚ) (labels : Option Tensor) (L : Nat) (h0 : Tensor)
    (st0 : InterState) (hm : c.attack_mode = "b2tr") (h1 : 1 ≤ c.split_point_1)
    (h12 : c.split_point_1 ≤ c.split_point_2) (h1L : c.split_point_1 ≤ L) :
    gpt2Forward (some c) training g block mask lnf L h0 st0 =
      ModelOut.cut (runUpTo block mask c.split_point_1 h0) st0 ∧
    lmForward (some c) training g block mask lnf lmHead lossFn labels L h0 st0 =
      LMOut.raw (ModelOut.cut (runUpTo block mask c.split_point_1 h0) st0) ∧
    (∀ block' : Block, (∀ i, i < c.split_point_1 → block' i = block i) →
      gpt2Forward (some c) training g block' mask lnf L h0 st0 =
        gpt2Forward (some c) training g block mask lnf L h0 st0) := by
  have hmain := forward_attack_b2tr c training g block mask lnf L h0 st0 hm h1 h12 h1L
  refine ⟨hmain, ?_, ?_⟩
  · unfold lmForward
    rw [hmain]
    simp [hm]
  · intro block' hagree
    rw [forward_attack_b2tr c training g block' mask lnf L h0 st0 hm h1 h12 h1L, hmain,
      runUpTo_congr block block' mask c.split_point_1 h0 hagree]

/-- C5 witness: the concrete 3-block instance in training mode with
`collect_intermediates = True` and gaussian noise configured (the returned
tensor is still the raw one). -/
theorem c5_witness :
    (cfgB2tr.attack_mode = "b2tr" ∧ 1 ≤ cfgB2tr.split_point_1 ∧
      cfgB2tr.split_point_1 ≤ cfgB2tr.split_point_2 ∧ cfgB2tr.split_point_1 ≤ 3) ∧
    (gpt2Forward (some cfgB2tr) true gX tbX none id 3 t0X initInterState =
      ModelOut.cut (runUpTo tbX none cfgB2tr.split_point_1 t0X) initInterState ∧
    lmForward (some cfgB2tr) true gX tbX none id id (fun _ _ => 0) none 3 t0X initInterState =
      LMOut.raw (ModelOut.cut (runUpTo tbX none cfgB2tr.split_point_1 t0X) initInterState) ∧
    (∀ block' : Block, (∀ i, i < cfgB2tr.split_point_1 → block' i = tbX i) →
      gpt2Forward (some cfgB2tr) true gX block' none id 3 t0X initInterState =
        gpt2Forward (some cfgB2tr) true gX tbX none id 3 t0X initInterState)) :=
  ⟨⟨rfl, by decide, by decide, by decide⟩,
   c5_attack_b2tr_cut cfgB2tr true gX tbX none id id (fun _ _ => 0) none 3 t0X
     initInterState rfl (by decide) (by decide) (by decide)⟩

/-- C6 (amended): gaussian noise is applied only at the b2tr boundary.
When `noise_mode = 'gaussian'`, the b2tr boundary tensor `x` (the state
after block `split_point_1 - 1`) is replaced by
`x + randn_like(x) * (max(x) - min(x)) * noise_scale`; the stored b2tr
Intermediate is exactly this noised tensor; the remaining blocks and `ln_f`
are applied to the noised tensor (the perturbation flows forward); and the
noise preserves shape, dtype, device and element count.  The tr2t
Intermediate, by contrast, is stored without any noise applied at that
boundary: it is the plain block composition `runSeg` of blocks
`split_point_1 .. split_point_2` on the noised b2tr tensor — see the
counterexample for a concrete run where it differs from the noised version
of its own boundary activation. -/
theorem c6_gaussian_noise (c : FLConfig) (g : Nat → ℚ) (block : Block) (mask : Option Tensor)
    (lnf : Tensor → Tensor) (L : Nat) (h0 : Tensor) (st0 : InterState)
    (hm : c.attack_mode = "") (hcol : c.collect_intermediates = true)
    (hg : c.noise_mode = "gaussian") (h1 : 1 ≤ c.split_point_1)
    (h12 : c.split_point_1 < c.split_point_2) (h2L : c.split_point_2 < L) :
    (gaussianNoised g c.noise_scale (runUpTo block mask c.split_point_1 h0)).data =
      List.zipWith (fun a n => a +
          n * (listMax (runUpTo block mask c.split_point_1 h0).data -
               listMin (runUpTo block mask c.split_point_1 h0).data) * c.noise_scale)
        (runUpTo block mask c.split_point_1 h0).data
        ((List.range (runUpTo block mask c.split_point_1 h0).data.length).map g) ∧
    gpt2Forward (some c) true g block mask lnf L h0 st0 =
      ModelOut.full
        (lnf (runSeg block mask c.split_point_1 (L - c.split_point_1)
          (gaussianNoised g c.noise_scale (runUpTo block mask c.split_point_1 h0))))
        ⟨some ⟨gaussianNoised g c.noise_scale (runUpTo block mask c.split_point_1 h0), none⟩,
         some ⟨runSeg block mask c.split_point_1 (c.split_point_2 + 1 - c.split_point_1)
            (gaussianNoised g c.noise_scale (runUpTo block mask c.split_point_1 h0)), none⟩⟩ ∧
    (gaussianNoised g c.noise_scale (runUpTo block mask c.split_point_1 h0)).shape =
      (runUpTo block mask c.split_point_1 h0).shape ∧
    (gaussianNoised g c.noise_scale (runUpTo block mask c.split_point_1 h0)).dtype =
      (runUpTo block mask c.split_point_1 h0).dtype ∧
    (gaussianNoised g c.noise_scale (runUpTo block mask c.split_point_1 h0)).device =
      (runUpTo block mask c.split_point_1 h0).device ∧
    (gaussianNoised g c.noise_scale (runUpTo block mask c.split_point_1 h0)).data.length =
      (runUpTo block mask c.split_point_1 h0).data.length := by
  have hap : applyNoise c g = gaussianNoised g c.noise_scale := by
    funext x
    simp [applyNoise, hg]
  have hcomp : runSeg block mask c.split_point_1 (L - c.split_point_1)
      (gaussianNoised g c.noise_scale (runUpTo block mask c.split_point_1 h0)) =
      runSeg block mask (c.split_point_2 + 1) (L - (c.split_point_2 + 1))
        (runSeg block mask c.split_point_1 (c.split_point_2 + 1 - c.split_point_1)
          (gaussianNoised g c.noise_scale (runUpTo block mask c.split_point_1 h0))) := by
    conv_lhs => rw [show L - c.split_point_1 =
      (c.split_point_2 + 1 - c.split_point_1) + (L - (c.split_point_2 + 1)) by omega]
    rw [runSeg_split, show c.split_point_1 + (c.split_point_2 + 1 - c.split_point_1) =
      c.split_point_2 + 1 by omega]
  refine ⟨rfl, ?_, rfl, rfl, rfl, ?_⟩
  · rw [forward_collect c g block mask lnf L h0 st0 hm hcol h1 h12 h2L, hap, hcomp]
  · simp [gaussianNoised, randnLike]

/-- C6 witness: the gaussian configuration at the concrete 3-block
instance. -/
theorem c6_witness :
    (cfgGauss.attack_mode = "" ∧ cfgGauss.collect_intermediates = true ∧
      cfgGauss.noise_mode = "gaussian" ∧ 1 ≤ cfgGauss.split_point_1 ∧
      cfgGauss.split_point_1 < cfgGauss.split_point_2 ∧ cfgGauss.split_point_2 < 3) ∧
    ((gaussianNoised gX cfgGauss.noise_scale (runUpTo tbX none cfgGauss.split_point_1 t0X)).data =
      List.zipWith (fun a n => a +
          n * (listMax (runUpTo tbX none cfgGauss.split_point_1 t0X).data -
               listMin (runUpTo tbX none cfgGauss.split_point_1 t0X).data) * cfgGauss.noise_scale)
        (runUpTo tbX none cfgGauss.split_point_1 t0X).data
        ((List.range (runUpTo tbX none cfgGauss.split_point_1 t0X).data.length).map gX) ∧
    gpt2Forward (some cfgGauss) true gX tbX none id 3 t0X initInterState =
      ModelOut.full
        (id (runSeg tbX none cfgGauss.split_point_1 (3 - cfgGauss.split_point_1)
          (gaussianNoised gX cfgGauss.noise_scale (runUpTo tbX none cfgGauss.split_point_1 t0X))))
        ⟨some ⟨gaussianNoised gX cfgGauss.noise_scale
            (runUpTo tbX none cfgGauss.split_point_1 t0X), none⟩,
         some ⟨runSeg tbX none cfgGauss.split_point_1
            (cfgGauss.split_point_2 + 1 - cfgGauss.split_point_1)
            (gaussianNoised gX cfgGauss.noise_scale
              (runUpTo tbX none cfgGauss.split_point_1 t0X)), none⟩⟩ ∧
    (gaussianNoised gX cfgGauss.noise_scale (runUpTo tbX none cfgGauss.split_point_1 t0X)).shape =
      (runUpTo tbX none cfgGauss.split_point_1 t0X).shape ∧
    (gaussianNoised gX cfgGauss.noise_scale (runUpTo tbX none cfgGauss.split_point_1 t0X)).dtype =
      (runUpTo tbX none cfgGauss.split_point_1 t0X).dtype ∧
    (gaussianNoised gX cfgGauss.noise_scale (runUpTo tbX none cfgGauss.split_point_1 t0X)).device =
      (runUpTo tbX none cfgGauss.split_point_1 t0X).device ∧
    (gaussianNoised gX cfgGauss.noise_scale
        (runUpTo tbX none cfgGauss.split_point_1 t0X)).data.length =
      (runUpTo tbX none cfgGauss.split_point_1 t0X).data.length) :=
  ⟨⟨rfl, rfl, rfl, by decide, by decide, by decide⟩,
   c6_gaussian_noise cfgGauss gX tbX none id 3 t0X initInterState rfl rfl rfl
     (by decide) (by decide) (by decide)⟩

/-- A block stack for the C6 counterexample: every block outputs the fixed
value list `[1, 0]` (so the tensor reaching the tr2t boundary is known
without rational arithmetic). -/
def tcX : Block := fun _ h _ => ⟨h.shape, [1, 0], h.dtype, h.device⟩

/-- C6 counterexample: a collecting training pass with
`noise_mode='gaussian'` reaches the tr2t boundary with activation
`[1, 0]` and stores it unchanged, whereas the original claim requires the
stored Intermediate at every reached boundary to be the noised tensor
`x + randn_like(x) * (max(x) - min(x)) * noise_scale`, here `[2, 1]`. -/
theorem c6_counterexample :
    (outState (gpt2Forward (some cfgGauss) true gX tcX none id 3 t0X
        initInterState)).trunk_to_top =
      some ⟨⟨[1], [1, 0], "float32", "cuda"⟩, none⟩ ∧
    gaussianNoised gX cfgGauss.noise_scale ⟨[1], [1, 0], "float32", "cuda"⟩ =
      ⟨[1], [2, 1], "float32", "cuda"⟩ ∧
    (outState (gpt2Forward (some cfgGauss) true gX tcX none id 3 t0X
        initInterState)).trunk_to_top ≠
      some ⟨gaussianNoised gX cfgGauss.noise_scale ⟨[1], [1, 0], "float32", "cuda"⟩,
        none⟩ := by
  have hA : (outState (gpt2Forward (some cfgGauss) true gX tcX none id 3 t0X
      initInterState)).trunk_to_top =
      some ⟨⟨[1], [1, 0], "float32", "cuda"⟩, none⟩ := by decide
  have hB : gaussianNoised gX cfgGauss.noise_scale ⟨[1], [1, 0], "float32", "cuda"⟩ =
      ⟨[1], [2, 1], "float32", "cuda"⟩ := by
    simp [gaussianNoised, randnLike, gX, listMin, listMax, cfgGauss]
    rw [show List.range 2 = [0, 1] from rfl]
    norm_num [gX]
  refine ⟨hA, hB, ?_⟩
  rw [hA, hB]
  decide

/-- C7: with an empty `intermediate_fx` (no collecting pass has run), both
gradient queries return the empty result `[]` for either value of `detach`
instead of raising. -/
theorem c7_empty_grad_queries :
    ∀ detach : Bool,
      get_top_to_trunk_grad initInterState detach = Except.ok GradResult.empty ∧
      get_trunk_to_bottom_grad initInterState detach = Except.ok GradResult.empty := by
  intro detach
  exact ⟨rfl, rfl⟩

/-- C8: the depth-scaled residual-projection branch of `reset_params` is
dead code.  On the attention projection weight nothing happens at all; on
the MLP projection weight the generic `mlp` branch draws with the unscaled
`initializer_range`; and no fully-qualified GPT2 parameter name can ever
equal the compared literal `c_proj.weight`, so `normalScaled` is never
produced. -/
theorem c8_scaled_init_dead (ir : ℚ) :
    reset_params ir "" [Seg.str "transformer", Seg.str "h", Seg.num 0, Seg.str "attn",
        Seg.str "c_proj", Seg.str "weight"] = ResetAction.untouched ∧
    reset_params ir "" [Seg.str "transformer", Seg.str "h", Seg.num 0, Seg.str "mlp",
        Seg.str "c_proj", Seg.str "weight"] = ResetAction.normalDrawn ir ∧
    (∀ (L : Nat) (nm : PName), nm ∈ gpt2ParamNames L →
      ∀ mode : String, reset_params ir mode nm ≠ ResetAction.normalScaled) := by
  refine ⟨rfl, rfl, ?_⟩
  intro L nm h mode
  exact reset_never_scaled h ir mode

/-- C8 witness: block 0's attention projection weight is a real parameter
name, is left untouched, and never receives the depth-scaled draw. -/
theorem c8_witness :
    ([Seg.str "transformer", Seg.str "h", Seg.num 0, Seg.str "attn", Seg.str "c_proj",
        Seg.str "weight"] : PName) ∈ gpt2ParamNames 1 ∧
    reset_params 1 "" [Seg.str "transformer", Seg.str "h", Seg.num 0, Seg.str "attn",
        Seg.str "c_proj", Seg.str "weight"] = ResetAction.untouched ∧
    reset_params 1 "" [Seg.str "transformer", Seg.str "h", Seg.num 0, Seg.str "attn",
        Seg.str "c_proj", Seg.str "weight"] ≠ ResetAction.normalScaled :=
  ⟨by decide, (c8_scaled_init_dead 1).1,
   (c8_scaled_init_dead 1).2.2 1 _ (by decide) ""⟩

/-- C9 (amended): the collate functions produce mappings with keys
`input_ids`, `input_att_mask` (not `attention_mask` as the original claim
stated) and `input_text`, plus `labels` for the IMDB classification
dataset; when the tokenizer pads (rectangular output), every 2-D integer
tensor stored in the batch is rectangular. -/
theorem c9_batch_mapping (tok : List String → TokenizerOut) (batch : List Example)
    (htok : ∀ ts, Rectangular (tok ts).input_ids ∧ Rectangular (tok ts).attention_mask) :
    (_col_fun tok batch).map Prod.fst = ["input_ids", "input_att_mask", "input_text"] ∧
    (imdb_col_fun tok batch).map Prod.fst =
      ["input_ids", "input_att_mask", "input_text", "labels"] ∧
    (∀ k m, (k, BVal.tensor2 m) ∈ _col_fun tok batch → Rectangular m) ∧
    (∀ k m, (k, BVal.tensor2 m) ∈ imdb_col_fun tok batch → Rectangular m) := by
  refine ⟨rfl, rfl, ?_, ?_⟩
  · intro k m hmem
    simp only [_col_fun, List.mem_cons, List.not_mem_nil, or_false, Prod.mk.injEq] at hmem
    rcases hmem with ⟨_, hm⟩ | ⟨_, hm⟩ | ⟨_, hm⟩
    · obtain rfl := (BVal.tensor2.injEq _ _).mp hm
      exact (htok _).1
    · obtain rfl := (BVal.tensor2.injEq _ _).mp hm
      exact (htok _).2
    · exact absurd hm (by simp)
  · intro k m hmem
    simp only [imdb_col_fun, List.mem_cons, List.not_mem_nil, or_false, Prod.mk.injEq] at hmem
    rcases hmem with ⟨_, hm⟩ | ⟨_, hm⟩ | ⟨_, hm⟩ | ⟨_, hm⟩
    · obtain rfl := (BVal.tensor2.injEq _ _).mp hm
      exact (htok _).1
    · obtain rfl := (BVal.tensor2.injEq _ _).mp hm
      exact (htok _).2
    · exact absurd hm (by simp)
    · exact absurd hm (by simp)

/-- C9 witness: a one-element batch under the concrete padding tokenizer. -/
theorem c9_witness :
    (∀ ts, Rectangular (tokX ts).input_ids ∧ Rectangular (tokX ts).attention_mask) ∧
    ((_col_fun tokX [⟨"x", 0⟩]).map Prod.fst = ["input_ids", "input_att_mask", "input_text"] ∧
    (imdb_col_fun tokX [⟨"x", 0⟩]).map Prod.fst =
      ["input_ids", "input_att_mask", "input_text", "labels"] ∧
    (∀ k m, (k, BVal.tensor2 m) ∈ _col_fun tokX [⟨"x", 0⟩] → Rectangular m) ∧
    (∀ k m, (k, BVal.tensor2 m) ∈ imdb_col_fun tokX [⟨"x", 0⟩] → Rectangular m)) :=
  ⟨tokX_rect, c9_batch_mapping tokX [⟨"x", 0⟩] tokX_rect⟩

/-- C9 counterexample: no batch contains a key named `attention_mask`; the
mask is stored under `input_att_mask`. -/
theorem c9_counterexample :
    "attention_mask" ∉ (_col_fun tokX [⟨"x", 0⟩]).map Prod.fst ∧
    "attention_mask" ∉ (imdb_col_fun tokX [⟨"x", 0⟩]).map Prod.fst ∧
    "input_att_mask" ∈ (_col_fun tokX [⟨"x", 0⟩]).map Prod.fst := by
  decide

/-- C10: after a collecting training forward pass (which stores both
Intermediates with no gradient yet) and before any backward pass, calling
either gradient query with `detach=True` raises (`.grad` is `None`, so
`.grad.clone()` fails) instead of returning an empty result. -/
theorem c10_grad_query_raises (c : FLConfig) (g : Nat → ℚ) (block : Block)
    (mask : Option Tensor) (lnf : Tensor → Tensor) (L : Nat) (h0 : Tensor) (st0 : InterState)
    (hm : c.attack_mode = "") (hcol : c.collect_intermediates = true)
    (h1 : 1 ≤ c.split_point_1) (h12 : c.split_point_1 < c.split_point_2)
    (h2L : c.split_point_2 < L) :
    (∃ e, get_trunk_to_bottom_grad
        (outState (gpt2Forward (some c) true g block mask lnf L h0 st0)) true =
      Except.error e) ∧
    (∃ e, get_top_to_trunk_grad
        (outState (gpt2Forward (some c) true g block mask lnf L h0 st0)) true =
      Except.error e) := by
  rw [forward_collect c g block mask lnf L h0 st0 hm hcol h1 h12 h2L]
  exact ⟨⟨_, rfl⟩, ⟨_, rfl⟩⟩

/-- C10 witness: the concrete collecting pass on three blocks. -/
theorem c10_witness :
    (cfgCollect.attack_mode = "" ∧ cfgCollect.collect_intermediates = true ∧
      1 ≤ cfgCollect.split_point_1 ∧ cfgCollect.split_point_1 < cfgCollect.split_point_2 ∧
      cfgCollect.split_point_2 < 3) ∧
    ((∃ e, get_trunk_to_bottom_grad
        (outState (gpt2Forward (some cfgCollect) true gX tbX none id 3 t0X initInterState))
        true = Except.error e) ∧
    (∃ e, get_top_to_trunk_grad
        (outState (gpt2Forward (some cfgCollect) true gX tbX none id 3 t0X initInterState))
        true = Except.error e)) :=
  ⟨⟨rfl, rfl, by decide, by decide, by decide⟩,
   c10_grad_query_raises cfgCollect gX tbX none id 3 t0X initInterState rfl rfl
     (by decide) (by decide) (by decide)⟩

end SFL
